import Mathlib

/-!
Shallow embedding of src/autoReply.js (cookiesblack/auto_reply).

The JavaScript source is a single mailbox-polling worker.  Its logic is
embedded here as pure Lean functions:

* JS string primitives (toLowerCase, includes, startsWith, endsWith, trim)
  are modelled over List Char; the source data is ASCII so per-character
  lowering matches JS toLowerCase on all inputs that occur.
* The two body-scraping regexes (lines 181 and 186 of autoReply.js) are
  embedded as specialised backtracking-free matchers.  Both patterns are
  deterministic in the regex engine except for the lazy [\s\S]*? segment
  and the leftmost-match search, which are realised by the scan functions
  trying each later start position in order, exactly as the engine does.
* The per-message flow (lines 95-237) is a function from the raw fetched
  message and the send result to the list of externally visible effects
  (flag mutations, sent reply).
-/

namespace AutoReply

/-- JS whitespace class: the members of regex \s and of String.trim that are
relevant here (ASCII whitespace plus NBSP, BOM and the line separators). -/
def isJsSpace (c : Char) : Bool :=
  c == ' ' || c == '\t' || c == '\n' || c == '\r' ||
  c == '\x0b' || c == '\x0c' || c == '\u00A0' || c == '\uFEFF' ||
  c == '\u2028' || c == '\u2029'

/-- JS String.prototype.toLowerCase, per character (ASCII-faithful). -/
def jsToLower (s : String) : String := ⟨s.data.map Char.toLower⟩

/-- Contiguous substring occurrence test on character lists. -/
def hasSub (sub : List Char) : List Char → Bool
  | [] => sub.isEmpty
  | c :: tl => sub.isPrefixOf (c :: tl) || hasSub sub tl

/-- JS String.prototype.includes: contiguous substring test. -/
def jsIncludes (s sub : String) : Bool := hasSub sub.data s.data

/-- JS String.prototype.startsWith. -/
def jsStartsWith (s sub : String) : Bool := sub.data.isPrefixOf s.data

/-- JS String.prototype.endsWith. -/
def jsEndsWith (s sub : String) : Bool := sub.data.isSuffixOf s.data

/-- JS String.prototype.trim on a character list. -/
def jsTrim (l : List Char) : List Char :=
  ((l.dropWhile isJsSpace).reverse.dropWhile isJsSpace).reverse

/-- JS String.prototype.trim. -/
def jsTrimStr (s : String) : String := ⟨jsTrim s.data⟩

/-- JS `a || b` on strings: b when a is falsy (empty), else a. -/
def jsOrString (a b : String) : String := if a == "" then b else a

/-- Case-insensitive character comparison, as used by a /i regex on ASCII. -/
def lcEq (a b : Char) : Bool := a.toLower == b.toLower

/-- Match a literal pattern case-insensitively at the head of the input,
returning the remaining input. -/
def matchLitCI : List Char → List Char → Option (List Char)
  | [], l => some l
  | _ :: _, [] => none
  | p :: ps, c :: cs => if lcEq p c then matchLitCI ps cs else none

/-- Match the regex fragment LIT [^>]* > at the head of the input
(e.g. the fragment matching an opening tag such as <th[^>]*>). -/
def afterTagOpen (lit l : List Char) : Option (List Char) :=
  match matchLitCI lit l with
  | none => none
  | some l1 =>
    match l1.dropWhile (fun c => !(c == '>')) with
    | [] => none
    | c :: l2 => if c == '>' then some l2 else none

/-- Match, at the head of the input, the header-cell part shared by both
body regexes: <th[^>]*> \s* <strong[^>]*> \s* LABEL \s* </strong> \s* </th>. -/
def matchHeaderCell (label l : List Char) : Option (List Char) :=
  match afterTagOpen ("<th".data) l with
  | none => none
  | some l2 =>
    match afterTagOpen ("<strong".data) (l2.dropWhile isJsSpace) with
    | none => none
    | some l4 =>
      match matchLitCI label (l4.dropWhile isJsSpace) with
      | none => none
      | some l5 =>
        match matchLitCI ("</strong>".data) (l5.dropWhile isJsSpace) with
        | none => none
        | some l6 => matchLitCI ("</th>".data) (l6.dropWhile isJsSpace)

/-- Character class [^\s<] of the email capture group. -/
def emailRun (c : Char) : Bool := !(isJsSpace c) && !(c == '<')

/-- Match <td[^>]*> \s* ([^\s<]+@[^\s<]+) \s* </td> at the head of the
input and return the capture.  The capture group necessarily spans the
whole maximal [^\s<] run, and the run must carry an at-sign at an interior
position (nonempty text on both sides). -/
def matchTdEmail (l : List Char) : Option (List Char) :=
  match afterTagOpen ("<td".data) l with
  | none => none
  | some l2 =>
    if (((((l2.dropWhile isJsSpace).takeWhile emailRun).drop 1).dropLast).contains '@')
    then
      match matchLitCI ("</td>".data)
          (((l2.dropWhile isJsSpace).dropWhile emailRun).dropWhile isJsSpace) with
      | some _ => some ((l2.dropWhile isJsSpace).takeWhile emailRun)
      | none => none
    else none

/-- Match <td[^>]*> \s* ([^<]+?) \s* </td> at the head of the input and
return the lazy capture: the cell text before the first < with trailing
whitespace ceded to the following \s*; when the cell is whitespace-only the
lazy group keeps exactly one final whitespace character. -/
def matchTdName (l : List Char) : Option (List Char) :=
  match afterTagOpen ("<td".data) l with
  | none => none
  | some l2 =>
    match matchLitCI ("</td>".data)
        ((l2.dropWhile isJsSpace).dropWhile (fun c => !(c == '<'))) with
    | none => none
    | some _ =>
      match (l2.dropWhile isJsSpace).takeWhile (fun c => !(c == '<')) with
      | [] =>
        match (l2.takeWhile isJsSpace).reverse with
        | [] => none
        | c :: _ => some [c]
      | q0 :: q =>
        some (((q0 :: q).reverse.dropWhile isJsSpace).reverse)

/-- Realisation of the lazy [\s\S]*? before the email <td> pattern: first
position, scanning left to right, where the tail pattern matches. -/
def findTdEmail : List Char → Option (List Char)
  | [] => none
  | c :: tl =>
    match matchTdEmail (c :: tl) with
    | some r => some r
    | none => findTdEmail tl

/-- Realisation of the lazy [\s\S]*? before the name <td> pattern. -/
def findTdName : List Char → Option (List Char)
  | [] => none
  | c :: tl =>
    match matchTdName (c :: tl) with
    | some r => some r
    | none => findTdName tl

/-- Leftmost match of the full email regex of autoReply.js line 181:
scan for the first start position whose Email header cell is followed
somewhere by a matching <td> e-mail cell. -/
def scanFormEmail : List Char → Option (List Char)
  | [] => none
  | c :: tl =>
    match matchHeaderCell ("Email".data) (c :: tl) with
    | some rest =>
      match findTdEmail rest with
      | some r => some r
      | none => scanFormEmail tl
    | none => scanFormEmail tl

/-- Leftmost match of the full name regex of autoReply.js line 186. -/
def scanFormName : List Char → Option (List Char)
  | [] => none
  | c :: tl =>
    match matchHeaderCell ("Full Name".data) (c :: tl) with
    | some rest =>
      match findTdName rest with
      | some r => some r
      | none => scanFormName tl
    | none => scanFormName tl

/-- emailMatch and the assignment targetEmail = emailMatch[1].trim()
(autoReply.js lines 181-184). -/
def targetEmailFromBody (body : String) : Option String :=
  (scanFormEmail body.data).map (fun r => (⟨jsTrim r⟩ : String))

/-- nameMatch and the assignment targetName = nameMatch[1].trim()
(autoReply.js lines 186-189). -/
def targetNameFromBody (body : String) : Option String :=
  (scanFormName body.data).map (fun r => (⟨jsTrim r⟩ : String))

/-- Process configuration (environment values fixed at startup). -/
structure Config where
  emailUser : String
  debugMode : Bool
  hourStart : Nat
  hourEnd : Nat
deriving DecidableEq, Repr

/-- One mailbox address entry as produced by the mail parser: address and
display name (empty string when the parser supplies no name). -/
structure Addr where
  address : String
  name : String
deriving DecidableEq, Repr

/-- The parsed header fields the pipeline reads (from simpleParser). -/
structure Header where
  fromAddr : Option Addr
  subject : Option String
  replyTo : Option Addr
  messageId : String
  references : Option String
deriving DecidableEq, Repr

/-- A raw fetched message: uid, optional HEADER part (none models a missing
header part or an unresolvable sender via fromAddr = none), optional TEXT
part. -/
structure RawMsg where
  uid : Nat
  header : Option Header
  textBody : Option String
deriving DecidableEq, Repr

/-- The structured message the classification chain reads, after the
defaulting at autoReply.js lines 117-120. -/
structure Parsed where
  fromAddress : String
  fromName : String
  subject : String
  replyTo : Option Addr
  messageId : String
  references : Option String
deriving DecidableEq, Repr

/-- Lines 117-120: fromEmail/fromName/subject extraction with the
"(No Subject)" default for a missing or empty subject. -/
def parsedOf (h : Header) (f : Addr) : Parsed :=
  { fromAddress := f.address
  , fromName := f.name
  , subject := jsOrString (h.subject.getD "") "(No Subject)"
  , replyTo := h.replyTo
  , messageId := h.messageId
  , references := h.references }

/-- Reasons for skipping a message (each ends in addFlags ['\Seen']). -/
inductive SkipReason
  | selfLoop
  | autoMailer
  | ignoredDomain
  | unresolvableForm
deriving DecidableEq, Repr

/-- Outcome of the classification chain for one message. -/
inductive Outcome
  | skip : SkipReason → Outcome
  | respond : String → String → Outcome
deriving DecidableEq, Repr

/-- Line 126: sender is the service itself and the subject starts with
re: after lowering (no trimming is performed by the source). -/
def selfLoopGuard (cfg : Config) (p : Parsed) : Bool :=
  (jsToLower p.fromAddress == jsToLower cfg.emailUser) &&
    jsStartsWith (jsToLower p.subject) "re:"

/-- Lines 132-135: auto-mailer detection. -/
def autoMailerGuard (p : Parsed) : Bool :=
  jsIncludes (jsToLower p.fromAddress) "no-reply" ||
  jsIncludes (jsToLower p.fromAddress) "noreply" ||
  jsIncludes (jsToLower p.fromAddress) "mailer-daemon" ||
  jsIncludes (jsToLower p.subject) "auto"

/-- Line 141: the hardcoded ignore list. -/
def ignoreDomains : List String := ["@stripe.com", "@amazon.com.au"]

/-- Line 142: sender domain ignore test on the lowered address. -/
def domainGuard (p : Parsed) : Bool :=
  ignoreDomains.any (fun d => jsEndsWith (jsToLower p.fromAddress) d)

/-- Lines 154-205: correspondent resolution for a form-submission message.
Reply-to first (address lowered, name defaulted to "there"); if that
leaves the target email falsy and the body is nonempty, the two regex
extractions run, each overwriting its target only on a match. -/
def resolveFluent (p : Parsed) (body : String) : String × String :=
  let t : String × String :=
    match p.replyTo with
    | some rt => (jsToLower rt.address, jsOrString rt.name "there")
    | none => ("", "there")
  if t.1 == "" && !(body == "") then
    ((targetEmailFromBody body).getD t.1, (targetNameFromBody body).getD t.2)
  else t

/-- The classification chain of autoReply.js lines 122-211 as a pure
function of configuration, parsed message and TEXT body. -/
def classify (cfg : Config) (p : Parsed) (body : String) : Outcome :=
  if selfLoopGuard cfg p then Outcome.skip SkipReason.selfLoop
  else if autoMailerGuard p then Outcome.skip SkipReason.autoMailer
  else if domainGuard p then Outcome.skip SkipReason.ignoredDomain
  else if jsToLower p.fromAddress == jsToLower cfg.emailUser then
    let t := resolveFluent p body
    if t.1 == "" then Outcome.skip SkipReason.unresolvableForm
    else Outcome.respond t.1 t.2
  else
    Outcome.respond (jsToLower p.fromAddress) (jsOrString p.fromName "there")

/-- The composed reply (mailOptions, autoReply.js lines 213-227). -/
structure OutboundReply where
  sender : String
  recipient : String
  subject : String
  text : String
  inReplyTo : String
  references : String
deriving DecidableEq, Repr

/-- Lines 213-227: reply composition.  references is the JS expression
parsedEmail.references || parsedEmail.messageId (message-id fallback when
the references field is absent or falsy-empty). -/
def composeReply (cfg : Config) (targetEmail targetName messageId : String)
    (references : Option String) : OutboundReply :=
  { sender := "\"GasPro Detection\" <" ++ cfg.emailUser ++ ">"
  , recipient := targetName ++ " <" ++ targetEmail ++ ">"
  , subject := "Re: We'll Reply Soon As Possible"
  , text := "Dear " ++ targetName ++
      ",\n\nThank you for contacting GasPro Detection.\n\nYour message has been received and is currently being reviewed by our team. One of our representatives will get back to you as soon as possible.\n\nKind regards,\nGasPro Detection Team"
  , inReplyTo := messageId
  , references :=
      match references with
      | some r => jsOrString r messageId
      | none => messageId }

/-- Externally visible effects of processing one message. -/
inductive Effect
  | markSeen : Nat → Effect
  | markSeenAnswered : Nat → Effect
  | sendReply : OutboundReply → Effect
deriving DecidableEq, Repr

/-- One iteration of the per-message loop (autoReply.js lines 95-237) as
the list of effects it performs.  sendOk tells whether transporter.sendMail
succeeds; when it throws, the per-message catch swallows the error before
any flag is set. -/
def processMessage (cfg : Config) (m : RawMsg) (sendOk : Bool) : List Effect :=
  match m.header with
  | none => []
  | some h =>
    match h.fromAddr with
    | none => []
    | some f =>
      let p := parsedOf h f
      let body := m.textBody.getD ""
      match classify cfg p body with
      | Outcome.skip _ => [Effect.markSeen m.uid]
      | Outcome.respond te tn =>
        if sendOk then
          [Effect.sendReply (composeReply cfg te tn h.messageId h.references),
            Effect.markSeenAnswered m.uid]
        else []

/-- The whole fetched batch, processed in order; a per-message failure
never halts the remainder (the loop body is wrapped in try/catch). -/
def runCycle (cfg : Config) (msgs : List RawMsg) (sendOk : RawMsg → Bool) :
    List Effect :=
  match msgs with
  | [] => []
  | m :: rest => processMessage cfg m (sendOk m) ++ runCycle cfg rest sendOk

/-- Line 60: isNightTime = hour >= HOUR_START || hour < HOUR_END. -/
def isNightTime (hourStart hourEnd hour : Nat) : Bool :=
  decide (hourStart ≤ hour) || decide (hour < hourEnd)

/-- Lines 60-65: a cycle proceeds past the gate iff DEBUG_MODE is set or
isNightTime holds. -/
def gatePermits (debugMode : Bool) (hourStart hourEnd hour : Nat) : Bool :=
  debugMode || isNightTime hourStart hourEnd hour

/-- Modelled from the spec (section 4.1): the half-open active window
[start, end) computed modulo 24, wrapping midnight when end precedes
start.  This is the spec-side definition used to compare the gate against
the claimed window semantics; it is not part of the source. -/
def specActiveWindow (hourStart hourEnd hour : Nat) : Bool :=
  if hourStart ≤ hourEnd then
    decide (hourStart ≤ hour) && decide (hour < hourEnd)
  else
    decide (hourStart ≤ hour) || decide (hour < hourEnd)

/-! Helper lemmas about the matchers, shared by several results below. -/

theorem matchLitCI_sfx (pat : List Char) :
    ∀ l l', matchLitCI pat l = some l' → l' <:+ l := by
  induction pat with
  | nil =>
    intro l l' h
    simp [matchLitCI] at h
    subst h
    exact List.suffix_refl l
  | cons p ps ih =>
    intro l l' h
    cases l with
    | nil => simp [matchLitCI] at h
    | cons c cs =>
      by_cases hc : lcEq p c = true
      · have h2 := ih cs l' (by simpa [matchLitCI, hc] using h)
        exact h2.trans (List.suffix_cons c cs)
      · simp [matchLitCI, hc] at h

theorem afterTagOpen_sfx {lit l l2 : List Char}
    (h : afterTagOpen lit l = some l2) : l2 <:+ l := by
  unfold afterTagOpen at h
  split at h
  · simp at h
  next l1 hm =>
    split at h
    · simp at h
    next a as hd =>
      split at h
      · have hv : as = l2 := by simpa using h
        subst hv
        have h1 : l1 <:+ l := matchLitCI_sfx lit l l1 hm
        have hsfx : a :: as <:+ l1 := by
          rw [← hd]; exact List.dropWhile_suffix _
        exact ((List.suffix_cons a as).trans hsfx).trans h1
      · simp at h

theorem matchHeaderCell_sfx {label l rest : List Char}
    (h : matchHeaderCell label l = some rest) : rest <:+ l := by
  unfold matchHeaderCell at h
  split at h
  · simp at h
  next l2 h2 =>
    split at h
    · simp at h
    next l4 h4 =>
      split at h
      · simp at h
      next l5 h5 =>
        split at h
        · simp at h
        next l6 h6 =>
          have s1 : l2 <:+ l := afterTagOpen_sfx h2
          have s2 : l4 <:+ l2 :=
            (afterTagOpen_sfx h4).trans (List.dropWhile_suffix _)
          have s3 : l5 <:+ l4 :=
            (matchLitCI_sfx _ _ _ h5).trans (List.dropWhile_suffix _)
          have s4 : l6 <:+ l5 :=
            (matchLitCI_sfx _ _ _ h6).trans (List.dropWhile_suffix _)
          have s5 : rest <:+ l6 :=
            (matchLitCI_sfx _ _ _ h).trans (List.dropWhile_suffix _)
          exact s5.trans (s4.trans (s3.trans (s2.trans s1)))

theorem matchTdEmail_spec {l r : List Char} (h : matchTdEmail l = some r) :
    r <:+: l ∧ (∀ c ∈ r, emailRun c = true) ∧ r ≠ [] := by
  unfold matchTdEmail at h
  split at h
  · simp at h
  next l2 h2 =>
    split at h
    next hc =>
      split at h
      next l9 hm =>
        have hr : (l2.dropWhile isJsSpace).takeWhile emailRun = r := by
          simpa using h
        subst hr
        refine ⟨?_, ?_, ?_⟩
        · have hp := List.takeWhile_prefix (l := l2.dropWhile isJsSpace) emailRun
          have hs : l2.dropWhile isJsSpace <:+ l2 := List.dropWhile_suffix _
          have hsl : l2 <:+ l := afterTagOpen_sfx h2
          exact hp.isInfix.trans ((hs.trans hsl).isInfix)
        · intro c hcm
          exact List.mem_takeWhile_imp hcm
        · intro h0
          rw [h0] at hc
          simp at hc
      next hm => simp at h
    next hc => simp at h

theorem findTdEmail_spec :
    ∀ {l r : List Char}, findTdEmail l = some r →
      r <:+: l ∧ (∀ c ∈ r, emailRun c = true) ∧ r ≠ [] := by
  intro l
  induction l with
  | nil => intro r h; simp [findTdEmail] at h
  | cons c tl ih =>
    intro r h
    cases hm : matchTdEmail (c :: tl) with
    | some r0 =>
      have hr : r0 = r := by simpa [findTdEmail, hm] using h
      subst hr
      exact matchTdEmail_spec hm
    | none =>
      have h2 : findTdEmail tl = some r := by simpa [findTdEmail, hm] using h
      obtain ⟨hinf, hall, hne⟩ := ih h2
      exact ⟨hinf.trans ((List.suffix_cons c tl).isInfix), hall, hne⟩

theorem scanFormEmail_spec :
    ∀ {l r : List Char}, scanFormEmail l = some r →
      r <:+: l ∧ (∀ c ∈ r, emailRun c = true) ∧ r ≠ [] := by
  intro l
  induction l with
  | nil => intro r h; simp [scanFormEmail] at h
  | cons c tl ih =>
    intro r h
    cases hm : matchHeaderCell ("Email".data) (c :: tl) with
    | some rest =>
      cases hf : findTdEmail rest with
      | some r0 =>
        have hr : r0 = r := by simpa [scanFormEmail, hm, hf] using h
        subst hr
        obtain ⟨hinf, hall, hne⟩ := findTdEmail_spec hf
        exact ⟨hinf.trans ((matchHeaderCell_sfx hm).isInfix), hall, hne⟩
      | none =>
        have h2 : scanFormEmail tl = some r := by
          simpa [scanFormEmail, hm, hf] using h
        obtain ⟨hinf, hall, hne⟩ := ih h2
        exact ⟨hinf.trans ((List.suffix_cons c tl).isInfix), hall, hne⟩
    | none =>
      have h2 : scanFormEmail tl = some r := by simpa [scanFormEmail, hm] using h
      obtain ⟨hinf, hall, hne⟩ := ih h2
      exact ⟨hinf.trans ((List.suffix_cons c tl).isInfix), hall, hne⟩

theorem dropWhile_id_of_neg {p : Char → Bool} {l : List Char}
    (H : ∀ c ∈ l, p c = false) : l.dropWhile p = l := by
  cases l with
  | nil => rfl
  | cons a as => simp [List.dropWhile_cons, H a (List.mem_cons_self a as)]

theorem jsTrim_id {l : List Char} (H : ∀ c ∈ l, isJsSpace c = false) :
    jsTrim l = l := by
  unfold jsTrim
  rw [dropWhile_id_of_neg H]
  rw [dropWhile_id_of_neg (fun c hc => H c (List.mem_reverse.mp hc))]
  exact List.reverse_reverse l

theorem targetEmailFromBody_spec {body e : String}
    (h : targetEmailFromBody body = some e) :
    e.data <:+: body.data ∧ e ≠ "" := by
  unfold targetEmailFromBody at h
  cases hs : scanFormEmail body.data with
  | none => rw [hs] at h; simp at h
  | some r =>
    rw [hs] at h
    obtain ⟨hinf, hall, hne⟩ := scanFormEmail_spec hs
    have htr : jsTrim r = r := jsTrim_id (fun c hc => by
      have h2 := hall c hc
      simp [emailRun, Bool.and_eq_true, Bool.not_eq_true'] at h2
      exact h2.1)
    have he : e = (⟨r⟩ : String) := by
      simp only [Option.map_some'] at h
      rw [htr] at h
      simpa using h.symm
    subst he
    refine ⟨hinf, ?_⟩
    intro h0
    exact hne (by simpa using congrArg String.data h0)

/-! Concrete fixtures used by the instance parts and witnesses below. -/

/-- A deployment configuration with the wrapping 17-to-8 active window. -/
def cfgEx : Config :=
  { emailUser := "gaspro@example.com", debugMode := true
  , hourStart := 17, hourEnd := 8 }

/-- A self-sent message whose subject carries leading whitespace before
the re: marker. -/
def pSelfRe : Parsed :=
  { fromAddress := "Gaspro@Example.com", fromName := ""
  , subject := " Re: hello", replyTo := none
  , messageId := "", references := none }

/-- The sender entry of a self-sent auto-reply. -/
def addrSelf : Addr := { address := "gaspro@example.com", name := "" }

/-- Header of a self-sent auto-reply with a plain re: subject. -/
def hdrSelfRe : Header :=
  { fromAddr := some addrSelf, subject := some "Re: hi"
  , replyTo := none, messageId := "", references := none }

/-- Raw fetched form of the self-sent auto-reply. -/
def rawSelfRe : RawMsg := { uid := 7, header := some hdrSelfRe, textBody := none }

/-- Parsed form-submission notification: self-sent, no reply-to. -/
def pFormEx : Parsed :=
  { fromAddress := "gaspro@example.com", fromName := ""
  , subject := "New Form Entry", replyTo := none
  , messageId := "<m1@x>", references := none }

/-- HTML body of the form notification, with Email and Full Name rows. -/
def bodyEx : String :=
  "<table><tr><th><strong>Email</strong></th><td>jane@example.com</td></tr><tr><th><strong>Full Name</strong></th><td>Jane Doe</td></tr></table>"

/-- Sender entry of a direct human message. -/
def addrAlice : Addr := { address := "alice@example.org", name := "Alice" }

/-- Header of the direct human message. -/
def hdrAlice : Header :=
  { fromAddr := some addrAlice, subject := some "Hello"
  , replyTo := none, messageId := "<msg1@example.org>", references := none }

/-- Raw fetched form of the direct human message. -/
def rawAlice : RawMsg :=
  { uid := 3, header := some hdrAlice, textBody := some "Hi team" }

/-- Form body whose Email data cell carries mixed-case letters. -/
def bodyMixed : String :=
  "<th><strong>EMAIL</strong></th><td>Jane@Example.COM</td>"

/-! The claims. -/

/-- C2 counterexample: a self-sent message whose subject starts with
"re:" only after trimming leading whitespace is NOT classified
Skip(self-loop) — the source tests subject.toLowerCase().startsWith("re:")
without trimming, so " Re: hello" misses guard 1 and falls through to the
form-correspondent rule instead. -/
theorem selfLoop_trim_cex :
    jsToLower pSelfRe.fromAddress = jsToLower cfgEx.emailUser ∧
    jsStartsWith (jsToLower (jsTrimStr pSelfRe.subject)) "re:" = true ∧
    classify cfgEx pSelfRe "" ≠ Outcome.skip SkipReason.selfLoop := by
  refine ⟨by decide, by decide, by decide⟩

/-- C2 (amended: no whitespace trimming — the guard fires exactly when the
untrimmed lowered subject starts with "re:"): every message whose sender
address equals the service address case-insensitively and whose subject,
WITHOUT trimming, starts with "re:" case-insensitively is classified
Skip(self-loop); processing flags it seen only, never answered, and sends
no reply, regardless of the send oracle. -/
theorem selfLoop_guard_no_trim (cfg : Config) (m : RawMsg) (h : Header)
    (f : Addr) (sendOk : Bool) (hh : m.header = some h)
    (hf : h.fromAddr = some f)
    (hself : jsToLower f.address = jsToLower cfg.emailUser)
    (hre : jsStartsWith (jsToLower (parsedOf h f).subject) "re:" = true) :
    classify cfg (parsedOf h f) (m.textBody.getD "") =
        Outcome.skip SkipReason.selfLoop ∧
    processMessage cfg m sendOk = [Effect.markSeen m.uid] := by
  have hguard : selfLoopGuard cfg (parsedOf h f) = true := by
    simp only [selfLoopGuard, parsedOf] at *
    simp [hself, hre]
  constructor
  · simp [classify, hguard]
  · simp [processMessage, hh, hf, classify, hguard]

/-- C2 witness: the concrete self-sent auto-reply is flagged seen only. -/
theorem selfLoop_guard_no_trim_wit :
    processMessage cfgEx rawSelfRe true = [Effect.markSeen 7] :=
  (selfLoop_guard_no_trim cfgEx rawSelfRe hdrSelfRe addrSelf true rfl rfl
    (by decide) (by decide)).2

/-- C3 counterexample: for a non-wrapping configuration the gate does not
implement the half-open window — with debug off, start=9, end=17, hour=20
the gate permits processing although 20 is outside [9, 17). -/
theorem window_gate_cex :
    gatePermits false 9 17 20 = true ∧ specActiveWindow 9 17 20 = false := by
  decide

/-- C3 (amended: the gate test is hour >= start OR hour < end, which
coincides with the half-open [start, end) window modulo 24 exactly when
the window wraps midnight, i.e. end < start; for non-wrapping
configurations the gate permits every hour): with debug disabled and a
midnight-wrapping window the gate permits iff the hour is in the window,
and the start=17/end=8 boundary facts hold as claimed. -/
theorem window_gate_wrap :
    (∀ s e h : Nat, e < s →
        gatePermits false s e h = specActiveWindow s e h) ∧
    gatePermits false 17 8 23 = true ∧
    gatePermits false 17 8 17 = true ∧
    gatePermits false 17 8 8 = false ∧
    gatePermits false 17 8 9 = false := by
  refine ⟨?_, by decide, by decide, by decide, by decide⟩
  intro s e h he
  rw [specActiveWindow, if_neg (by omega)]
  rfl

/-- C3 witness: the wrap equivalence instantiated at the configured
start=17, end=8 window and hour 23. -/
theorem window_gate_wrap_wit :
    gatePermits false 17 8 23 = specActiveWindow 17 8 23 :=
  window_gate_wrap.1 17 8 23 (by decide)

/-- C5: a fetched message with no header part, or whose sender cannot be
resolved to an address, is skipped entirely: no flag is set and no reply
is sent, whatever the send oracle. -/
theorem extraction_failure_unflagged (cfg : Config) (m : RawMsg)
    (sendOk : Bool)
    (hfail : m.header = none ∨ ∃ h, m.header = some h ∧ h.fromAddr = none) :
    processMessage cfg m sendOk = [] := by
  rcases hfail with hh | ⟨h, hh, hf⟩
  · simp [processMessage, hh]
  · simp [processMessage, hh, hf]

/-- C5 witness: a raw message with no header part produces no effects. -/
theorem extraction_failure_unflagged_wit :
    processMessage cfgEx { uid := 9, header := none, textBody := none } true
      = [] :=
  extraction_failure_unflagged cfgEx _ true (Or.inl rfl)

/-- C8: the composed reply's in-reply-to is the inbound message-id; its
references field is the inbound references when a nonempty chain is
present and falls back to the message-id when the references field is
absent (or empty, which the source's falsy test treats as absent); in
particular with message-id M1 and no references both fields are M1. -/
theorem threading_headers (cfg : Config) (te tn mid : String)
    (refs : Option String) :
    (composeReply cfg te tn mid refs).inReplyTo = mid ∧
    (refs = none → (composeReply cfg te tn mid refs).references = mid) ∧
    (∀ r, refs = some r → r ≠ "" →
        (composeReply cfg te tn mid refs).references = r) ∧
    (composeReply cfg te tn "M1" none).inReplyTo = "M1" ∧
    (composeReply cfg te tn "M1" none).references = "M1" := by
  refine ⟨rfl, ?_, ?_, rfl, rfl⟩
  · rintro rfl
    rfl
  · rintro r rfl hr
    simp [composeReply, jsOrString, hr]

/-- C8 witness: a nonempty references chain is preserved verbatim. -/
theorem threading_headers_wit :
    (composeReply cfgEx "a@b.c" "Ann" "M1" (some "R1")).references = "R1" :=
  (threading_headers cfgEx "a@b.c" "Ann" "M1" (some "R1")).2.2.1 "R1" rfl
    (by decide)

/-- C9: classification is a pure function of the parsed message, body and
configuration — evaluating it twice on the same inputs gives the same
outcome; there is no hidden state in the chain. -/
theorem classify_deterministic (cfg : Config) (p : Parsed) (body : String) :
    classify cfg p body = classify cfg p body := rfl

/-- C6: a message that misses the self-loop guard and whose lowered sender
address contains no-reply, noreply or mailer-daemon, or whose lowered
subject contains auto, is classified Skip(auto-mailer-detected) and is
flagged seen with no reply sent. -/
theorem auto_mailer_skip (cfg : Config) (m : RawMsg) (h : Header) (f : Addr)
    (sendOk : Bool) (hh : m.header = some h) (hf : h.fromAddr = some f)
    (hg1 : selfLoopGuard cfg (parsedOf h f) = false)
    (hany : jsIncludes (jsToLower f.address) "no-reply" = true ∨
            jsIncludes (jsToLower f.address) "noreply" = true ∨
            jsIncludes (jsToLower f.address) "mailer-daemon" = true ∨
            jsIncludes (jsToLower (parsedOf h f).subject) "auto" = true) :
    classify cfg (parsedOf h f) (m.textBody.getD "") =
        Outcome.skip SkipReason.autoMailer ∧
    processMessage cfg m sendOk = [Effect.markSeen m.uid] := by
  have hguard : autoMailerGuard (parsedOf h f) = true := by
    have hfa : (parsedOf h f).fromAddress = f.address := rfl
    rcases hany with h1 | h1 | h1 | h1 <;> simp [autoMailerGuard, hfa, h1]
  constructor
  · simp [classify, hg1, hguard]
  · simp [processMessage, hh, hf, classify, hg1, hguard]

/-- Sender entry of an automated notification. -/
def addrNoReply : Addr := { address := "NoReply@shop.example", name := "" }

/-- Header of the automated notification. -/
def hdrNoReply : Header :=
  { fromAddr := some addrNoReply, subject := some "Receipt"
  , replyTo := none, messageId := "", references := none }

/-- Raw fetched form of the automated notification. -/
def rawNoReply : RawMsg :=
  { uid := 11, header := some hdrNoReply, textBody := none }

/-- C6 witness: the concrete noreply sender is flagged seen only. -/
theorem auto_mailer_skip_wit :
    processMessage cfgEx rawNoReply true = [Effect.markSeen 11] :=
  (auto_mailer_skip cfgEx rawNoReply hdrNoReply addrNoReply true rfl rfl
    (by decide) (Or.inr (Or.inl (by decide)))).2

/-- C7: a message that misses guards 1-2 and whose lowered sender address
ends with one of the configured ignored domain suffixes is classified
Skip(ignored-domain) and is flagged seen with no reply sent. -/
theorem ignored_domain_skip (cfg : Config) (m : RawMsg) (h : Header)
    (f : Addr) (sendOk : Bool) (hh : m.header = some h)
    (hf : h.fromAddr = some f)
    (hg1 : selfLoopGuard cfg (parsedOf h f) = false)
    (hg2 : autoMailerGuard (parsedOf h f) = false)
    (d : String) (hd : d ∈ ignoreDomains)
    (hend : jsEndsWith (jsToLower f.address) d = true) :
    classify cfg (parsedOf h f) (m.textBody.getD "") =
        Outcome.skip SkipReason.ignoredDomain ∧
    processMessage cfg m sendOk = [Effect.markSeen m.uid] := by
  have hguard : domainGuard (parsedOf h f) = true := by
    unfold domainGuard
    exact List.any_eq_true.mpr ⟨d, hd, hend⟩
  constructor
  · simp [classify, hg1, hg2, hguard]
  · simp [processMessage, hh, hf, classify, hg1, hg2, hguard]

/-- Sender entry of a message from an ignored partner domain. -/
def addrStripe : Addr := { address := "Billing@Stripe.com", name := "Stripe" }

/-- Header of the ignored-domain message. -/
def hdrStripe : Header :=
  { fromAddr := some addrStripe, subject := some "Invoice"
  , replyTo := none, messageId := "", references := none }

/-- Raw fetched form of the ignored-domain message. -/
def rawStripe : RawMsg :=
  { uid := 12, header := some hdrStripe, textBody := none }

/-- C7 witness: the concrete stripe.com sender is flagged seen only. -/
theorem ignored_domain_skip_wit :
    processMessage cfgEx rawStripe true = [Effect.markSeen 12] :=
  (ignored_domain_skip cfgEx rawStripe hdrStripe addrStripe true rfl rfl
    (by decide) (by decide) "@stripe.com" (by simp [ignoreDomains])
    (by decide)).2

/-- C4: for a message classified Respond, a successful send produces
exactly one sent reply followed by exactly one seen+answered flagging;
a failed send leaves the flags untouched (no effects at all); and the
batch loop always continues with the remaining messages either way. -/
theorem respond_flags_and_batch (cfg : Config) (m : RawMsg) (h : Header)
    (f : Addr) (te tn : String) (hh : m.header = some h)
    (hf : h.fromAddr = some f)
    (hc : classify cfg (parsedOf h f) (m.textBody.getD "") =
        Outcome.respond te tn) :
    processMessage cfg m true =
      [Effect.sendReply (composeReply cfg te tn h.messageId h.references),
        Effect.markSeenAnswered m.uid] ∧
    processMessage cfg m false = [] ∧
    (∀ (rest : List RawMsg) (oracle : RawMsg → Bool),
        runCycle cfg (m :: rest) oracle =
          processMessage cfg m (oracle m) ++ runCycle cfg rest oracle) := by
  refine ⟨?_, ?_, fun rest oracle => rfl⟩
  · simp [processMessage, hh, hf, hc]
  · simp [processMessage, hh, hf, hc]

/-- C4 witness: the direct human message is replied to and flagged
seen+answered exactly once on a successful send. -/
theorem respond_flags_and_batch_wit :
    processMessage cfgEx rawAlice true =
      [Effect.sendReply
          (composeReply cfgEx "alice@example.org" "Alice" "<msg1@example.org>"
            none),
        Effect.markSeenAnswered 3] :=
  (respond_flags_and_batch cfgEx rawAlice hdrAlice addrAlice
    "alice@example.org" "Alice" rfl rfl (by decide)).1

/-- C1: for a message reaching rule 4 (self sender, guards 1-3 missed),
the correspondent is the reply-to address (lowered) and name when a
reply-to with an address is present; otherwise the Email/Full Name
table-row extraction from the body decides: a match yields the extracted
pair, no match yields Skip(unresolvable-form-correspondent); in
particular the jane@example.com / Jane Doe scenario resolves as claimed. -/
theorem form_correspondent_resolution (cfg : Config) (p : Parsed)
    (body : String)
    (hg1 : selfLoopGuard cfg p = false)
    (hg2 : autoMailerGuard p = false)
    (hg3 : domainGuard p = false)
    (hself : jsToLower p.fromAddress = jsToLower cfg.emailUser) :
    (∀ rt, p.replyTo = some rt → jsToLower rt.address ≠ "" →
        classify cfg p body =
          Outcome.respond (jsToLower rt.address) (jsOrString rt.name "there")) ∧
    (p.replyTo = none → ∀ e, targetEmailFromBody body = some e →
        classify cfg p body =
          Outcome.respond e ((targetNameFromBody body).getD "there")) ∧
    (p.replyTo = none → targetEmailFromBody body = none →
        classify cfg p body = Outcome.skip SkipReason.unresolvableForm) ∧
    classify cfgEx pFormEx bodyEx =
      Outcome.respond "jane@example.com" "Jane Doe" := by
  refine ⟨?_, ?_, ?_, by decide⟩
  · intro rt hrt hne
    have hb : (jsToLower rt.address == "") = false := beq_eq_false_iff_ne.mpr hne
    have hres : resolveFluent p body =
        (jsToLower rt.address, jsOrString rt.name "there") := by
      simp [resolveFluent, hrt, hb]
    simp [classify, hg1, hg2, hg3, hself, hres, hb]
  · intro h0 e he
    have hbody : body ≠ "" := by
      intro hb
      rw [hb] at he
      simp [targetEmailFromBody, scanFormEmail] at he
    have hbb : (body == "") = false := beq_eq_false_iff_ne.mpr hbody
    have hres : resolveFluent p body =
        (e, (targetNameFromBody body).getD "there") := by
      simp [resolveFluent, h0, hbb, he]
    have hene : e ≠ "" := (targetEmailFromBody_spec he).2
    have heb : (e == "") = false := beq_eq_false_iff_ne.mpr hene
    simp [classify, hg1, hg2, hg3, hself, hres, heb]
  · intro h0 hnone
    by_cases hb : body = ""
    · simp [classify, hg1, hg2, hg3, hself, resolveFluent, h0, hb]
    · have hbb : (body == "") = false := beq_eq_false_iff_ne.mpr hb
      simp [classify, hg1, hg2, hg3, hself, resolveFluent, h0, hbb, hnone]

/-- C1 witness: the concrete form-submission scenario resolves to
jane@example.com / Jane Doe. -/
theorem form_correspondent_resolution_wit :
    classify cfgEx pFormEx bodyEx =
      Outcome.respond "jane@example.com" "Jane Doe" :=
  (form_correspondent_resolution cfgEx pFormEx bodyEx (by decide) (by decide)
    (by decide) (by decide)).2.2.2

/-- C10: an address extracted from the body is a verbatim segment of the
body (letter case preserved, nothing but surrounding whitespace removed by
the matcher/trim), whereas a reply-to target address is lowered, and a
non-form correspondent gets the lowered sender address. -/
theorem body_email_case_preserved :
    (∀ body e : String, targetEmailFromBody body = some e →
        e.data <:+: body.data) ∧
    (∀ (p : Parsed) (body : String) (rt : Addr), p.replyTo = some rt →
        jsToLower rt.address ≠ "" →
        resolveFluent p body =
          (jsToLower rt.address, jsOrString rt.name "there")) ∧
    (∀ (cfg : Config) (p : Parsed) (body : String),
        selfLoopGuard cfg p = false → autoMailerGuard p = false →
        domainGuard p = false →
        jsToLower p.fromAddress ≠ jsToLower cfg.emailUser →
        classify cfg p body =
          Outcome.respond (jsToLower p.fromAddress)
            (jsOrString p.fromName "there")) := by
  refine ⟨?_, ?_, ?_⟩
  · intro body e he
    exact (targetEmailFromBody_spec he).1
  · intro p body rt hrt hne
    have hb : (jsToLower rt.address == "") = false := beq_eq_false_iff_ne.mpr hne
    simp [resolveFluent, hrt, hb]
  · intro cfg p body hg1 hg2 hg3 hne
    have hb : (jsToLower p.fromAddress == jsToLower cfg.emailUser) = false :=
      beq_eq_false_iff_ne.mpr hne
    simp [classify, hg1, hg2, hg3, hb]

/-- C10 witness: the mixed-case address Jane@Example.COM extracted from
the body occurs verbatim (case intact) inside the body. -/
theorem body_email_case_preserved_wit :
    ("Jane@Example.COM" : String).data <:+: bodyMixed.data :=
  body_email_case_preserved.1 bodyMixed "Jane@Example.COM" (by decide)

end AutoReply
